import Mathlib

set_option maxHeartbeats 1000000

/-!
Verification of the per-client price-list cache subsystem of
`src/routes/listaPrecios.js` (the `ClienteCache` class, the
`optimizePriceData` helper, the `/lista-precios/completo` orchestration
and the `/lista-precios/visibles` resolver).

The JavaScript code is embedded shallowly:

* a JS `Map` (insertion-ordered, unique keys) is an association list
  `List (String × β)`; `Map.get`, `Map.set` and `Map.delete` become
  `mapGet`, `mapSet` and `mapDelete` below;
* a plain JS object used as a dictionary (`mapaPrecios`) uses the same
  model (property assignment keeps the position of an existing key and
  appends a new one);
* `Date.now()` is threaded through every operation as an explicit
  `now : Nat` (milliseconds);
* JS numbers holding prices are embedded as `Int`; entry counts as `Nat`;
* the JS string primitives used by the routes (`split(',')`, `trim()`,
  `includes('@')`, `substring(0, 80)`) are modelled structurally over the
  character list of the string so that every definition evaluates inside
  the kernel;
* `Math.ceil(n * 0.2)` agrees with the exact ceiling `⌈n / 5⌉` for every
  entry count representable here (checked against IEEE-754 double
  arithmetic for all `n ≤ 2·10^6`), so the eviction count is embedded as
  `(n + 4) / 5`;
* the upstream fetch (`obtenerListaPreciosPorCliente` /
  `obtenerListaPreciosPorEmail`, including its retry and fallback
  phases) is an external collaborator; the orchestrator model takes the
  outcome of the whole fetch phase as an explicit parameter.
-/

namespace ListaPrecios

/-! ## JS primitives -/

/-- JS `Map.prototype.get` on an insertion-ordered association list. -/
def mapGet {β : Type} : List (String × β) → String → Option β
  | [], _ => none
  | (k2, v) :: rest, k => if k2 = k then some v else mapGet rest k

/-- JS `Map.prototype.set` / object property assignment: an existing key
is overwritten in place, a new key is appended at the end. -/
def mapSet {β : Type} (l : List (String × β)) (k : String) (v : β) :
    List (String × β) :=
  if l.any (fun e => e.1 == k) then
    l.map (fun e => if e.1 = k then (k, v) else e)
  else
    l ++ [(k, v)]

/-- JS `Map.prototype.delete`: removes the entry carrying the key (a JS
`Map` holds each key at most once, so removal is a filter). -/
def mapDelete {β : Type} (l : List (String × β)) (k : String) :
    List (String × β) :=
  l.filter (fun e => !(e.1 == k))

/-- JS `String.prototype.split` with a single-character separator,
over the character list. -/
def jsSplitChar (c : Char) : List Char → List (List Char)
  | [] => [[]]
  | x :: rest =>
    let r := jsSplitChar c rest
    if x = c then [] :: r
    else
      match r with
      | [] => [[x]]
      | h :: t => (x :: h) :: t

/-- JS `skus.split(',')`. -/
def jsSplitComma (s : String) : List String :=
  (jsSplitChar ',' s.toList).map (fun cs => ⟨cs⟩)

/-- JS `String.prototype.trim`: strips leading and trailing whitespace. -/
def jsTrim (s : String) : String :=
  ⟨((s.toList.dropWhile Char.isWhitespace).reverse.dropWhile
      Char.isWhitespace).reverse⟩

/-- JS `String.prototype.includes` with a single-character needle. -/
def jsIncludesChar (s : String) (c : Char) : Bool :=
  s.toList.contains c

/-- JS `String.prototype.substring(0, n)`. -/
def jsTake (s : String) (n : Nat) : String :=
  ⟨s.toList.take n⟩

/-! ## Optimizer data model (`optimizePriceData`, source lines 343-401) -/

/-- A raw upstream product. `none` models an absent (`undefined`/`null`)
field; where the source applies a JS truthiness test, the empty string
and the number `0` are additionally treated as falsy. -/
structure RawProduct where
  articulo : Option String
  nombre : Option String
  precio_final : Option Int
  precio_lista : Option Int
  deriving DecidableEq

/-- The compact per-product record built by the `optimizado` branch
(source lines 364-370). -/
structure ItemOptimizado where
  s : String
  n : String
  pf : Int
  pl : Int
  d : Bool
  deriving DecidableEq

/-- One value of the SKU → price map (source lines 375-379). -/
structure MapEntry where
  precio_final : Int
  precio_lista : Int
  tiene_descuento : Bool
  deriving DecidableEq

/-- An element of `lista_precios`: raw pass-through in the `completo`
format, compact record in the `optimizado` format. -/
inductive PriceItem where
  | raw (p : RawProduct)
  | opt (i : ItemOptimizado)
  deriving DecidableEq

/-- JS `x || default` for an optional string (empty string is falsy). -/
def jsOrStr (x : Option String) (d : String) : String :=
  match x with
  | some s => if s = "" then d else s
  | none => d

/-- JS `x || 0` for an optional number (`0` is falsy, so the result is
the same). -/
def jsOrInt (x : Option Int) : Int := x.getD 0

/-- `producto.nombre ? producto.nombre.substring(0, 80) : ""`
(source line 366). -/
def nombreOf (p : RawProduct) : String :=
  match p.nombre with
  | some s => if s = "" then "" else jsTake s 80
  | none => ""

/-- The `itemOptimizado` record of one loop iteration
(source lines 364-370). -/
def itemOptimizado (index : Nat) (producto : RawProduct) : ItemOptimizado :=
  { s := jsOrStr producto.articulo ("unknown_" ++ toString index)
    n := nombreOf producto
    pf := jsOrInt producto.precio_final
    pl := jsOrInt producto.precio_lista
    d := decide (jsOrInt producto.precio_lista > jsOrInt producto.precio_final) }

/-- State of the `prices.forEach` loop: accumulated `listaOptimizada`,
`mapaPrecios` and `tieneDescuentos` (source lines 362-382). -/
def optStep (st : List ItemOptimizado × List (String × MapEntry) × Bool)
    (ip : Nat × RawProduct) : List ItemOptimizado × List (String × MapEntry) × Bool :=
  let it := itemOptimizado ip.1 ip.2
  (st.1 ++ [it], mapSet st.2.1 it.s ⟨it.pf, it.pl, it.d⟩, st.2.2 || it.d)

/-- Result record of `optimizePriceData`. The early-return branch of the
source carries no `optimizaciones` field, hence the `Option`; likewise
`mapa_precios := none` models the JS `undefined`. -/
structure OptimizeResult where
  lista_precios : List PriceItem
  mapa_precios : Option (List (String × MapEntry))
  total_productos : Nat
  tiene_descuentos : Bool
  optimizaciones : Option (List String)
  deriving DecidableEq

/-- `optimizePriceData(prices, formato)` (source lines 343-401).
Non-array input takes the same early branch as the empty array and is
subsumed by `[]`. -/
def optimizePriceData (prices : List RawProduct) (formato : String) :
    OptimizeResult :=
  if prices.length = 0 then
    { lista_precios := []
      mapa_precios := some []
      total_productos := 0
      tiene_descuentos := false
      optimizaciones := none }
  else if formato = "optimizado" then
    let st := prices.enum.foldl optStep ([], [], false)
    { lista_precios := st.1.map PriceItem.opt
      mapa_precios := some st.2.1
      total_productos := st.1.length
      tiene_descuentos := st.2.2
      optimizaciones := some ["compresion_nombres", "estructura_minima",
        "mapa_busqueda_rapida"] }
  else
    { lista_precios := prices.map PriceItem.raw
      mapa_precios := none
      total_productos := prices.length
      tiene_descuentos := false
      optimizaciones := some ["formato_completo"] }

/-! ## The `ClienteCache` class (source lines 13-110) -/

/-- `metadata` stored with a cache payload (source lines 274-280).
Timestamps are milliseconds. -/
structure CacheMetadata where
  timestamp_obtencion : Nat
  tiempo_obtencion_ms : Nat
  formato_optimizado : String
  cliente_tipo : String
  tiene_descuentos : Bool
  deriving DecidableEq

/-- The payload stored per client (`cacheData`, source lines 270-281). -/
structure CacheData where
  lista_precios : List PriceItem
  mapa_precios : Option (List (String × MapEntry))
  total_productos : Nat
  metadata : CacheMetadata
  deriving DecidableEq

/-- The value stored in `this.cache` (source lines 44-48). -/
structure CacheItem where
  data : CacheData
  timestamp : Nat
  size : Nat
  deriving DecidableEq

/-- The value stored in `this.stats` (source line 88). -/
structure StatEntry where
  hits : Nat
  sets : Nat
  lastAccess : Nat
  deriving DecidableEq

/-- The two maps of a `ClienteCache` instance (source lines 14-19). -/
structure ClienteCache where
  cache : List (String × CacheItem)
  stats : List (String × StatEntry)
  deriving DecidableEq

/-- `this.MAX_CACHE_SIZE` (source line 17). -/
def MAX_CACHE_SIZE : Nat := 200

/-- `this.CACHE_TTL` in milliseconds (source line 18). -/
def CACHE_TTL : Nat := 6 * 60 * 60 * 1000

/-- The freshly constructed cache. -/
def ClienteCache.empty : ClienteCache := ⟨[], []⟩

/-- `updateStats(clienteId, action)` (source lines 86-96). -/
def ClienteCache.updateStats (c : ClienteCache) (clienteId : String)
    (action : String) (now : Nat) : ClienteCache :=
  let stats0 :=
    if (mapGet c.stats clienteId).isNone then
      mapSet c.stats clienteId ⟨0, 0, now⟩
    else c.stats
  match mapGet stats0 clienteId with
  | none => { c with stats := stats0 }
  | some st =>
    let st1 := { st with lastAccess := now }
    let st2 := if action = "hit" then { st1 with hits := st1.hits + 1 } else st1
    let st3 := if action = "set" then { st2 with sets := st2.sets + 1 } else st2
    { c with stats := mapSet stats0 clienteId st3 }

/-- `get(clienteId)` (source lines 22-35): lazy TTL expiry, then a hit
updates the statistics.  Returns the looked-up payload together with the
successor state. -/
def ClienteCache.get (c : ClienteCache) (clienteId : String) (now : Nat) :
    Option CacheData × ClienteCache :=
  match mapGet c.cache clienteId with
  | none => (none, c)
  | some item =>
    if now - item.timestamp > CACHE_TTL then
      (none, { c with cache := mapDelete c.cache clienteId })
    else
      (some item.data, c.updateStats clienteId ("hit") now)

/-- `delete(clienteId)` (source lines 55-58): removes the cache entry
only; the stats map is untouched. -/
def ClienteCache.delete (c : ClienteCache) (clienteId : String) : ClienteCache :=
  { c with cache := mapDelete c.cache clienteId }

/-- `stats.get(key) || { hits: 0 }` restricted to the `hits` field, the
only field the `cleanup` comparator reads (source lines 67-68). -/
def hitsOf (stats : List (String × StatEntry)) (k : String) : Nat :=
  match mapGet stats k with
  | some st => st.hits
  | none => 0

/-- The `cleanup` sort comparator (source lines 66-74) as a boolean total
preorder: fewer hits first, ties broken by the older timestamp. -/
def cleanupLe (stats : List (String × StatEntry)) (a b : String × CacheItem) :
    Bool :=
  decide (hitsOf stats a.1 < hitsOf stats b.1) ||
    (decide (hitsOf stats a.1 = hitsOf stats b.1) &&
      decide (a.2.timestamp ≤ b.2.timestamp))

/-- `Math.ceil(entries.length * 0.2)` (source line 77).  For every entry
count below `2·10^6` the IEEE-754 double computation agrees with the
exact ceiling of `n / 5`, which is `(n + 4) / 5` in `Nat`. -/
def toDeleteCount (n : Nat) : Nat := (n + 4) / 5

/-- `cleanup()` (source lines 61-83): sort all entries by the comparator
(ES2019 `Array.prototype.sort` is stable, as is `mergeSort`), then delete
the first 20 % (rounded up) from the cache map. -/
def ClienteCache.cleanup (c : ClienteCache) : ClienteCache :=
  let entries := c.cache.mergeSort (cleanupLe c.stats)
  let toDelete := toDeleteCount entries.length
  (entries.take toDelete).foldl (fun acc e => acc.delete e.1) c

/-- `set(clienteId, data)` (source lines 38-52): cleanup first when the
cache is at or above capacity, then insert, then update the stats. -/
def ClienteCache.set (c : ClienteCache) (clienteId : String)
    (data : CacheData) (now : Nat) : ClienteCache :=
  let c1 := if c.cache.length ≥ MAX_CACHE_SIZE then c.cleanup else c
  let c2 := { c1 with
    cache := mapSet c1.cache clienteId ⟨data, now, data.lista_precios.length⟩ }
  c2.updateStats clienteId ("set") now

/-- One element of `clientes_mas_activos` (source line 107). -/
structure ClienteActivo where
  cliente : String
  hits : Nat
  deriving DecidableEq

/-- The record returned by `getStats()` (source lines 99-109). -/
structure CacheStats where
  total_clientes : Nat
  memoria_total_kb : ℚ
  clientes_mas_activos : List ClienteActivo
  deriving DecidableEq

/-- The `getStats` comparator `(a, b) => b[1].hits - a[1].hits`
(descending hits) as a boolean total preorder. -/
def statsByHitsDesc (a b : String × StatEntry) : Bool :=
  decide (b.2.hits ≤ a.2.hits)

/-- `getStats()` (source lines 99-109). -/
def ClienteCache.getStats (c : ClienteCache) : CacheStats :=
  { total_clientes := c.cache.length
    memoria_total_kb :=
      ((c.cache.map (fun e => (e.2.size : ℚ))).sum) / 1024
    clientes_mas_activos :=
      ((c.stats.mergeSort statsByHitsDesc).take 5).map
        (fun e => ⟨e.1, e.2.hits⟩) }

/-! ## The `/lista-precios/visibles` resolver (source lines 445-527) -/

/-- The advisory attached to every placeholder product when the client is
not usable from the cache (source line 501). -/
def advisoryMsg : String := "Cliente no cacheado, use endpoint /completo primero"

/-- The SKU pipeline of the resolver (source lines 464-467):
split on commas, trim every piece, drop empties, keep the first 100. -/
def skuArrayOf (skus : String) : List String :=
  (((jsSplitComma skus).map jsTrim).filter (fun s => decide (s ≠ ""))).take 100

/-- One element of the `productos` array of the resolver response
(source lines 477-482 and 496-502). -/
structure ProductoEncontrado where
  articulo : String
  precio_final : Int
  precio_lista : Int
  desde_cache : Bool
  advertencia : Option String
  deriving DecidableEq

/-- The resolver success envelope (source lines 505-518);
`metadata_desde_cache` is `metadata.desde_cache`. -/
structure VisiblesResponse where
  success : Bool
  cliente : String
  skus_solicitados : Nat
  skus_encontrados : Nat
  productos : List ProductoEncontrado
  recomendacion : String
  metadata_desde_cache : Bool
  deriving DecidableEq

/-- Outcome of the resolver route: a 400 validation response or a 200
payload together with the successor cache state. -/
inductive VisiblesResult where
  | badRequest (error : String)
  | ok (r : VisiblesResponse) (cache : ClienteCache)
  deriving DecidableEq

/-- The placeholder product returned for a SKU when the cache is not
usable (source lines 496-502). -/
def placeholderProducto (sku : String) : ProductoEncontrado :=
  ⟨sku, 0, 0, false, some advisoryMsg⟩

/-- The `/lista-precios/visibles/:codigoCliente` handler
(source lines 445-527).  `skus = none` models an absent query parameter;
an empty string is falsy in JS and is rejected the same way.  The
branch on the cached entry requires `mapa_precios` to be present (any JS
object, even empty, is truthy; `undefined` is not). -/
def visiblesHandler (cache : ClienteCache) (codigoCliente : String)
    (skus : Option String) (now : Nat) : VisiblesResult :=
  if codigoCliente = "" then .badRequest "Código de cliente requerido"
  else
    match skus with
    | none => .badRequest "Parámetro skus requerido"
    | some skusStr =>
      if skusStr = "" then .badRequest "Parámetro skus requerido"
      else
        let skuArray := skuArrayOf skusStr
        let got := cache.get codigoCliente now
        let productosEncontrados :=
          match got.1 with
          | some cd =>
            match cd.mapa_precios with
            | some mapa =>
              skuArray.filterMap (fun sku =>
                (mapGet mapa sku).map (fun e =>
                  ⟨sku, e.precio_final, e.precio_lista, true, none⟩))
            | none => skuArray.map placeholderProducto
          | none => skuArray.map placeholderProducto
        .ok
          { success := true
            cliente := codigoCliente
            skus_solicitados := skuArray.length
            skus_encontrados := productosEncontrados.length
            productos := productosEncontrados
            recomendacion :=
              if productosEncontrados.length < skuArray.length then
                "Algunos SKUs no encontrados. Verifique los códigos o actualice cache."
              else "Todos los SKUs encontrados exitosamente"
            metadata_desde_cache :=
              match productosEncontrados with
              | [] => false
              | p :: _ => p.desde_cache }
          got.2

/-! ## The `/lista-precios/completo` orchestrator (source lines 126-338) -/

/-- Shape of the value produced by the upstream fetch phase
(source lines 207-216): a bare array, an envelope carrying
`lista_precios`, or anything else. -/
inductive UpstreamShape where
  | arr (l : List RawProduct)
  | envelope (l : List RawProduct)
  | other
  deriving DecidableEq

/-- The normalisation step (source lines 207-216): returns the product
list together with `totalProductos`. -/
def normalizeUpstream : UpstreamShape → List RawProduct × Nat
  | .arr l => (l, l.length)
  | .envelope l => (l, l.length)
  | .other => ([], 0)

/-- The payload stored into the cache on a successful non-empty fetch
(source lines 270-281). -/
def mkCacheData (optimizedData : OptimizeResult) (formato : String)
    (esEmail : Bool) (totalProductos fetchTime now : Nat) : CacheData :=
  { lista_precios := optimizedData.lista_precios
    mapa_precios := optimizedData.mapa_precios
    total_productos := totalProductos
    metadata :=
      { timestamp_obtencion := now
        tiempo_obtencion_ms := fetchTime
        formato_optimizado := formato
        cliente_tipo := if esEmail then "email" else "codigo"
        tiene_descuentos := optimizedData.tiene_descuentos } }

/-- The fields of the `/completo` response envelope that the present
development reasons about (source lines 161-174 and 289-317).
`guardado_en_cache` is absent from the cache-hit response, hence the
`Option`; `mapa_precios` is attached only for the `optimizado` format. -/
structure CompletoResponse where
  success : Bool
  cliente : String
  total_productos : Nat
  lista_precios : List PriceItem
  desde_cache : Bool
  guardado_en_cache : Option Bool
  mapa_precios : Option (List (String × MapEntry))
  deriving DecidableEq

/-- Outcome of the orchestrator route: a 400 validation response, a 500
upstream failure, or a 200 payload, each with the successor cache. -/
inductive CompletoResult where
  | badRequest (error : String)
  | serverError (message : String) (cache : ClienteCache)
  | ok (r : CompletoResponse) (cache : ClienteCache)
  deriving DecidableEq

/-- The `/lista-precios/completo/:codigoCliente` handler
(source lines 126-338).  The whole upstream fetch phase — primary
attempts, retries and the first-page fallback (lines 189-251) — is an
external collaborator and enters as `fetchOutcome`: `Except.error`
models the case in which primary and fallback both failed, and
`Except.ok` carries the shape of the value the phase produced. -/
def completoHandler (cache : ClienteCache) (codigoCliente : String)
    (fuerza_actualizacion formato : String)
    (fetchOutcome : Except String UpstreamShape)
    (fetchTime now : Nat) : CompletoResult :=
  if jsTrim codigoCliente = "" then .badRequest "Código de cliente requerido"
  else
    let clienteId := jsTrim codigoCliente
    let esEmail := jsIncludesChar clienteId '@'
    let checked : Option CacheData × ClienteCache :=
      if fuerza_actualizacion ≠ "true" then cache.get clienteId now
      else (none, cache)
    match checked.1 with
    | some cd =>
      .ok
        { success := true
          cliente := clienteId
          total_productos := cd.total_productos
          lista_precios := cd.lista_precios
          desde_cache := true
          guardado_en_cache := none
          mapa_precios := cd.mapa_precios }
        checked.2
    | none =>
      match fetchOutcome with
      | .error msg =>
        .serverError ("No se pudieron obtener precios para " ++ clienteId ++
          ": " ++ msg) checked.2
      | .ok shape =>
        let nz := normalizeUpstream shape
        let optimizedData := optimizePriceData nz.1 formato
        let cache2 :=
          if nz.2 > 0 then
            checked.2.set clienteId
              (mkCacheData optimizedData formato esEmail nz.2 fetchTime now) now
          else checked.2
        .ok
          { success := true
            cliente := clienteId
            total_productos := nz.2
            lista_precios := optimizedData.lista_precios
            desde_cache := false
            guardado_en_cache := some (decide (nz.2 > 0))
            mapa_precios :=
              if formato = "optimizado" then optimizedData.mapa_precios
              else none }
          cache2

/-! ## Derived definitions used by the statements -/

/-- A sequence of `set` calls against a fresh cache instance, each with
its key, payload and clock value. -/
def runSets (ops : List (String × CacheData × Nat)) : ClienteCache :=
  ops.foldl (fun c op => c.set op.1 op.2.1 op.2.2) ClienteCache.empty

/-- The optimized items carried by a `lista_precios`. -/
def optItemsOf (r : OptimizeResult) : List ItemOptimizado :=
  r.lista_precios.filterMap (fun pi =>
    match pi with
    | .opt it => some it
    | .raw _ => none)

/-- The price index of an optimizer result, read as a map
(empty when absent). -/
def mapaOf (r : OptimizeResult) : List (String × MapEntry) :=
  r.mapa_precios.getD []

/-- The index/list consistency property exactly as the specification
states it: every sku of the produced price list appears exactly once as
a key of the price index, and the index entry carries the same final and
list price as the list item bearing that sku. -/
@[reducible] def indexListConsistent (r : OptimizeResult) : Prop :=
  ((mapaOf r).map Prod.fst).Nodup ∧
    ∀ it ∈ optItemsOf r,
      (mapGet (mapaOf r) it.s).map MapEntry.precio_final = some it.pf ∧
        (mapGet (mapaOf r) it.s).map MapEntry.precio_lista = some it.pl

/-- The skus produced by the `optimizado` loop, in order. -/
def optimizedSkus (prices : List RawProduct) : List String :=
  prices.enum.map (fun ip => (itemOptimizado ip.1 ip.2).s)

/-- One `mapaPrecios[sku] = ...` assignment of the optimizer loop. -/
def insItem (m : List (String × MapEntry)) (it : ItemOptimizado) :
    List (String × MapEntry) :=
  mapSet m it.s ⟨it.pf, it.pl, it.d⟩

/-! ## Concrete instances used by witnesses and counterexamples -/

/-- A minimal stored payload. -/
def demoData : CacheData :=
  { lista_precios := []
    mapa_precios := some []
    total_productos := 0
    metadata := ⟨0, 0, "optimizado", "codigo", false⟩ }

/-- A payload as stored by a `completo`-format fetch: it carries a price
list but no price index (`mapa_precios` is the JS `undefined`). -/
def demoDataNoMapa : CacheData :=
  { lista_precios := [PriceItem.raw ⟨some "A", some "N", some 5, some 5⟩]
    mapa_precios := none
    total_productos := 1
    metadata := ⟨0, 0, "completo", "codigo", false⟩ }

/-- A cache holding one entry stored at time 0 with stats
`hits = 3, sets = 1`. -/
def expiredCache : ClienteCache :=
  ⟨[("A", ⟨demoData, 0, 0⟩)], [("A", ⟨3, 1, 5⟩)]⟩

/-- A cache holding two entries: `"A"` with 0 hits stored at 0 and `"B"`
with 5 hits stored at 1. -/
def twoEntryCache : ClienteCache :=
  ⟨[("A", ⟨demoData, 0, 0⟩), ("B", ⟨demoData, 1, 0⟩)],
    [("A", ⟨0, 1, 0⟩), ("B", ⟨5, 1, 1⟩)]⟩

/-- A cache holding one fresh entry whose payload has no price index. -/
def noMapaCache : ClienteCache :=
  ⟨[("A", ⟨demoDataNoMapa, 0, 0⟩)], [("A", ⟨0, 1, 0⟩)]⟩

/-- Two raw products sharing the sku `"A"` with different prices. -/
def dupInput : List RawProduct :=
  [⟨some "A", some "X", some 1, some 2⟩, ⟨some "A", some "Y", some 3, some 4⟩]

/-- Two raw products with distinct skus. -/
def distinctInput : List RawProduct :=
  [⟨some "A", some "X", some 80, some 100⟩,
    ⟨some "B", some "Y", some 50, some 50⟩]

/-- The character list of `"X,X,...,X"` with the given number of `X`s. -/
def repSkus : Nat → List Char
  | 0 => []
  | 1 => ['X']
  | n + 2 => 'X' :: ',' :: repSkus (n + 1)

/-- A comma-separated request of 150 skus, 50 beyond the cap. -/
def manySkus : String := ⟨repSkus 150⟩

/-! ## Lemmas about the map model -/

theorem mapGet_map_replace {β : Type} (l : List (String × β)) (k : String)
    (v : β) (h : l.any (fun e => e.1 == k) = true) :
    mapGet (l.map (fun e => if e.1 = k then (k, v) else e)) k = some v := by
  induction l with
  | nil => simp at h
  | cons e rest ih =>
    by_cases hek : e.1 = k
    · rw [List.map_cons, if_pos hek]
      simp [mapGet]
    · have h2 : rest.any (fun e => e.1 == k) = true := by
        simp only [List.any_cons, Bool.or_eq_true, beq_iff_eq] at h
        rcases h with h | h
        · exact absurd h hek
        · simpa using h
      rw [List.map_cons, if_neg hek]
      simp only [mapGet]
      rw [if_neg hek]
      exact ih h2

theorem mapGet_map_replace_ne {β : Type} (l : List (String × β))
    (k : String) (v : β) (k2 : String) (hne : k2 ≠ k) :
    mapGet (l.map (fun e => if e.1 = k then (k, v) else e)) k2 = mapGet l k2 := by
  induction l with
  | nil => rfl
  | cons e rest ih =>
    by_cases hek : e.1 = k
    · have hk2 : ¬ k = k2 := fun hk => hne hk.symm
      have hk3 : ¬ e.1 = k2 := by rw [hek]; exact hk2
      rw [List.map_cons, if_pos hek]
      simp only [mapGet]
      rw [if_neg hk2, if_neg hk3]
      exact ih
    · rw [List.map_cons, if_neg hek]
      simp only [mapGet]
      by_cases h2 : e.1 = k2
      · rw [if_pos h2, if_pos h2]
      · rw [if_neg h2, if_neg h2]
        exact ih

theorem mapGet_append_single {β : Type} (l : List (String × β)) (k : String)
    (v : β) (h : l.any (fun e => e.1 == k) = false) :
    mapGet (l ++ [(k, v)]) k = some v := by
  induction l with
  | nil => simp [mapGet]
  | cons e rest ih =>
    simp only [List.any_cons, Bool.or_eq_false_iff, beq_eq_false_iff_ne] at h
    simpa [mapGet, h.1] using ih (by simpa using h.2)

theorem mapGet_append_single_ne {β : Type} (l : List (String × β))
    (k : String) (v : β) (k2 : String) (hne : k2 ≠ k) :
    mapGet (l ++ [(k, v)]) k2 = mapGet l k2 := by
  induction l with
  | nil =>
    have : ¬ k = k2 := fun hk => hne hk.symm
    simp [mapGet, this]
  | cons e rest ih =>
    by_cases h2 : e.1 = k2 <;> simp [mapGet, h2, ih]

theorem mapGet_mapSet_self {β : Type} (l : List (String × β)) (k : String)
    (v : β) : mapGet (mapSet l k v) k = some v := by
  unfold mapSet
  split
  · exact mapGet_map_replace l k v (by assumption)
  · rename_i hf
    exact mapGet_append_single l k v (Bool.eq_false_iff.mpr hf)

theorem mapGet_mapSet_ne {β : Type} (l : List (String × β)) (k : String)
    (v : β) (k2 : String) (hne : k2 ≠ k) :
    mapGet (mapSet l k v) k2 = mapGet l k2 := by
  unfold mapSet
  split
  · exact mapGet_map_replace_ne l k v k2 hne
  · exact mapGet_append_single_ne l k v k2 hne

theorem mapGet_mapDelete_self {β : Type} (l : List (String × β)) (k : String) :
    mapGet (mapDelete l k) k = none := by
  induction l with
  | nil => rfl
  | cons e rest ih =>
    by_cases hek : e.1 = k
    · simpa [mapDelete, List.filter_cons, hek] using ih
    · simpa [mapDelete, List.filter_cons, hek, mapGet] using ih

theorem length_mapDelete_of_mem {β : Type} (l : List (String × β))
    (k : String) (v : β) (hnd : (l.map Prod.fst).Nodup)
    (h : mapGet l k = some v) :
    (mapDelete l k).length + 1 = l.length := by
  induction l with
  | nil => simp [mapGet] at h
  | cons e rest ih =>
    simp only [List.map_cons, List.nodup_cons] at hnd
    by_cases hek : e.1 = k
    · have hall : mapDelete rest k = rest := by
        apply List.filter_eq_self.mpr
        intro a ha
        simp only [Bool.not_eq_true', beq_eq_false_iff_ne]
        intro hak
        apply hnd.1
        rw [hek, ← hak]
        exact List.mem_map_of_mem Prod.fst ha
      have hstep : mapDelete (e :: rest) k = mapDelete rest k := by
        simp only [mapDelete]
        rw [List.filter_cons_of_neg]
        simp [hek]
      rw [hstep, hall]
      simp
    · have hstep : mapDelete (e :: rest) k = e :: mapDelete rest k := by
        simp only [mapDelete]
        rw [List.filter_cons_of_pos]
        simp [hek]
      have h2 : mapGet rest k = some v := by
        simp only [mapGet, if_neg hek] at h
        exact h
      rw [hstep]
      simp only [List.length_cons]
      have := ih hnd.2 h2
      omega

theorem length_mapSet_le {β : Type} (l : List (String × β)) (k : String)
    (v : β) : (mapSet l k v).length ≤ l.length + 1 := by
  unfold mapSet
  split
  · simp
  · simp

theorem nodup_keys_mapSet {β : Type} (l : List (String × β)) (k : String)
    (v : β) (h : (l.map Prod.fst).Nodup) :
    ((mapSet l k v).map Prod.fst).Nodup := by
  unfold mapSet
  split
  · have : (l.map (fun e => if e.1 = k then (k, v) else e)).map Prod.fst =
        l.map Prod.fst := by
      rw [List.map_map]
      apply List.map_congr_left
      intro e _
      by_cases hek : e.1 = k <;> simp [hek]
    rw [this]; exact h
  · rename_i hany
    rw [List.map_append]
    refine List.Nodup.append h (by simp) ?_
    intro a ha hb
    simp only [List.map_cons, List.map_nil, List.mem_singleton] at hb
    subst hb
    rcases List.mem_map.mp ha with ⟨e, he, hfst⟩
    exact hany (List.any_eq_true.mpr ⟨e, he, by simp [hfst]⟩)

theorem nodup_keys_mapDelete {β : Type} (l : List (String × β)) (k : String)
    (h : (l.map Prod.fst).Nodup) : ((mapDelete l k).map Prod.fst).Nodup :=
  ((List.filter_sublist l).map Prod.fst).nodup h

/-! ## Lemmas about the cache operations -/

theorem updateStats_cache (c : ClienteCache) (k a : String) (now : Nat) :
    (c.updateStats k a now).cache = c.cache := by
  unfold ClienteCache.updateStats
  split <;> (dsimp only; split <;> rfl)

theorem updateStats_hit_hits (c : ClienteCache) (k : String) (now : Nat) :
    hitsOf ((c.updateStats k ("hit") now).stats) k = hitsOf c.stats k + 1 := by
  unfold ClienteCache.updateStats
  cases hst : mapGet c.stats k with
  | none =>
    have h0 : mapGet (mapSet c.stats k (⟨0, 0, now⟩ : StatEntry)) k =
        some ⟨0, 0, now⟩ := mapGet_mapSet_self _ _ _
    simp only [hst, Option.isNone_none, if_pos, h0]
    simp only [hitsOf, hst, mapGet_mapSet_self]
    rw [if_neg (show ¬ ("hit" : String) = "set" from by decide)]
  | some st =>
    simp only [hst, Option.isNone_some, Bool.false_eq_true, if_neg,
      not_false_iff, ite_false]
    simp only [hitsOf, hst, mapGet_mapSet_self]
    rw [if_neg (show ¬ ("hit" : String) = "set" from by decide), if_pos trivial]

theorem get_fst_of_fresh (c : ClienteCache) (k : String) (now : Nat)
    (item : CacheItem) (hfind : mapGet c.cache k = some item)
    (hfresh : ¬ now - item.timestamp > CACHE_TTL) :
    c.get k now = (some item.data, c.updateStats k ("hit") now) := by
  unfold ClienteCache.get
  rw [hfind]
  simp only [if_neg hfresh]

theorem get_of_expired (c : ClienteCache) (k : String) (now : Nat)
    (item : CacheItem) (hfind : mapGet c.cache k = some item)
    (hexp : now - item.timestamp > CACHE_TTL) :
    c.get k now = (none, { c with cache := mapDelete c.cache k }) := by
  unfold ClienteCache.get
  rw [hfind]
  simp only [if_pos hexp]

theorem get_of_absent (c : ClienteCache) (k : String) (now : Nat)
    (hfind : mapGet c.cache k = none) : c.get k now = (none, c) := by
  unfold ClienteCache.get
  rw [hfind]

theorem get_none_absent (c : ClienteCache) (k : String) (now : Nat)
    (h : (c.get k now).1 = none) :
    mapGet ((c.get k now).2).cache k = none := by
  cases hfind : mapGet c.cache k with
  | none => rw [get_of_absent c k now hfind]; exact hfind
  | some item =>
    by_cases hexp : now - item.timestamp > CACHE_TTL
    · rw [get_of_expired c k now item hfind hexp]
      exact mapGet_mapDelete_self _ _
    · rw [get_fst_of_fresh c k now item hfind hexp] at h
      simp at h

theorem set_cache (c : ClienteCache) (k : String) (d : CacheData) (now : Nat) :
    (c.set k d now).cache =
      mapSet (if c.cache.length ≥ MAX_CACHE_SIZE then c.cleanup else c).cache
        k ⟨d, now, d.lista_precios.length⟩ := by
  unfold ClienteCache.set
  rw [updateStats_cache]

theorem foldl_delete_stats (es : List (String × CacheItem)) (c : ClienteCache) :
    (es.foldl (fun acc e => acc.delete e.1) c).stats = c.stats := by
  induction es generalizing c with
  | nil => rfl
  | cons e rest ih => exact ih _

theorem foldl_delete_cache (es : List (String × CacheItem)) (c : ClienteCache) :
    (es.foldl (fun acc e => acc.delete e.1) c).cache =
      (es.map Prod.fst).foldl mapDelete c.cache := by
  induction es generalizing c with
  | nil => rfl
  | cons e rest ih => exact ih _

theorem foldl_mapDelete_filter {β : Type} (ks : List String)
    (l : List (String × β)) :
    ks.foldl mapDelete l = l.filter (fun e => decide (e.1 ∉ ks)) := by
  induction ks generalizing l with
  | nil => simp
  | cons k ks ih =>
    simp only [List.foldl_cons, ih]
    rw [show mapDelete l k = l.filter (fun e => !(e.1 == k)) from rfl,
      List.filter_filter]
    apply List.filter_congr
    intro e _
    by_cases h1 : e.1 = k <;> by_cases h2 : e.1 ∈ ks <;>
      simp [h1, h2, List.mem_cons]

theorem cleanup_stats (c : ClienteCache) : (c.cleanup).stats = c.stats := by
  unfold ClienteCache.cleanup
  exact foldl_delete_stats _ _

theorem cleanup_cache (c : ClienteCache) :
    (c.cleanup).cache = c.cache.filter (fun e => decide (e.1 ∉
      ((c.cache.mergeSort (cleanupLe c.stats)).take
        (toDeleteCount c.cache.length)).map Prod.fst)) := by
  unfold ClienteCache.cleanup
  rw [foldl_delete_cache, foldl_mapDelete_filter,
    (List.mergeSort_perm c.cache (cleanupLe c.stats)).length_eq]

theorem cleanupLe_trans (stats : List (String × StatEntry))
    (a b c : String × CacheItem) (h1 : cleanupLe stats a b = true)
    (h2 : cleanupLe stats b c = true) : cleanupLe stats a c = true := by
  simp only [cleanupLe, Bool.or_eq_true, Bool.and_eq_true,
    decide_eq_true_eq] at *
  omega

theorem cleanupLe_total (stats : List (String × StatEntry))
    (a b : String × CacheItem) :
    (cleanupLe stats a b || cleanupLe stats b a) = true := by
  simp only [cleanupLe, Bool.or_eq_true, Bool.and_eq_true,
    decide_eq_true_eq]
  omega

theorem toDeleteCount_le (n : Nat) : toDeleteCount n ≤ n := by
  unfold toDeleteCount
  omega

theorem toDeleteCount_pos (n : Nat) (h : 1 ≤ n) : 1 ≤ toDeleteCount n := by
  unfold toDeleteCount
  omega

/-- Core analysis of `cleanup` on a cache with distinct keys: exactly
the bottom `⌈n/5⌉` entries of the comparator order are removed. -/
theorem cleanup_counting (c : ClienteCache)
    (hnd : (c.cache.map Prod.fst).Nodup) :
    (c.cleanup).cache.length + toDeleteCount c.cache.length = c.cache.length ∧
    ∀ e ∈ c.cache, e ∉ (c.cleanup).cache →
      ∀ e2 ∈ (c.cleanup).cache, cleanupLe c.stats e e2 = true := by
  have hperm : (c.cache.mergeSort (cleanupLe c.stats)).Perm c.cache :=
    List.mergeSort_perm c.cache (cleanupLe c.stats)
  set sorted := c.cache.mergeSort (cleanupLe c.stats) with hsorted
  set t := toDeleteCount c.cache.length with htdef
  set Dkeys := (sorted.take t).map Prod.fst with hD
  have hslen : sorted.length = c.cache.length := hperm.length_eq
  have hcc : (c.cleanup).cache =
      c.cache.filter (fun e => decide (e.1 ∉ Dkeys)) := cleanup_cache c
  have hknd : (sorted.map Prod.fst).Nodup :=
    ((hperm.map Prod.fst).nodup_iff).mpr hnd
  have hsplit : sorted.take t ++ sorted.drop t = sorted :=
    List.take_append_drop t sorted
  have hdisj : ∀ a ∈ Dkeys, a ∉ (sorted.drop t).map Prod.fst := by
    have hknd2 : (Dkeys ++ (sorted.drop t).map Prod.fst).Nodup := by
      rw [hD, ← List.map_append, hsplit]
      exact hknd
    exact fun a ha hb => (List.nodup_append.mp hknd2).2.2 ha hb
  have hftake : (sorted.take t).filter (fun e => decide (e.1 ∉ Dkeys)) = [] := by
    apply List.filter_eq_nil_iff.mpr
    intro a ha
    simp only [decide_eq_true_eq, Decidable.not_not]
    exact List.mem_map_of_mem Prod.fst ha
  have hfdrop : (sorted.drop t).filter (fun e => decide (e.1 ∉ Dkeys)) =
      sorted.drop t := by
    apply List.filter_eq_self.mpr
    intro a ha
    simp only [decide_eq_true_eq]
    exact fun hmem => hdisj a.1 hmem (List.mem_map_of_mem Prod.fst ha)
  have hfsorted : sorted.filter (fun e => decide (e.1 ∉ Dkeys)) =
      sorted.drop t := by
    conv_lhs => rw [← hsplit]
    rw [List.filter_append, hftake, hfdrop, List.nil_append]
  have hcount : (c.cleanup).cache.length = c.cache.length - t := by
    rw [hcc,
      (List.Perm.filter (fun e => decide (e.1 ∉ Dkeys)) hperm.symm).length_eq,
      hfsorted, List.length_drop, hslen]
  refine ⟨by have := toDeleteCount_le c.cache.length; omega, ?_⟩
  intro e he hnotin e2 he2
  rw [hcc] at hnotin he2
  have heD : e.1 ∈ Dkeys := by
    by_contra heD
    exact hnotin (List.mem_filter.mpr ⟨he, by simpa using heD⟩)
  have hpe2 := List.mem_filter.mp he2
  have he2D : e2.1 ∉ Dkeys := by simpa using hpe2.2
  have hes : e ∈ sorted := hperm.mem_iff.mpr he
  have hes2 : e2 ∈ sorted := hperm.mem_iff.mpr hpe2.1
  have hetake : e ∈ sorted.take t := by
    rcases List.mem_append.mp (by rw [hsplit]; exact hes) with h | h
    · exact h
    · exact absurd (List.mem_map_of_mem Prod.fst h) (hdisj e.1 heD)
  have he2drop : e2 ∈ sorted.drop t := by
    rcases List.mem_append.mp (by rw [hsplit]; exact hes2) with h | h
    · exact absurd (List.mem_map_of_mem Prod.fst h) he2D
    · exact h
  have hpair : sorted.Pairwise (fun a b => cleanupLe c.stats a b = true) :=
    List.sorted_mergeSort (fun x y z => cleanupLe_trans c.stats x y z)
      (fun x y => cleanupLe_total c.stats x y) c.cache
  rw [← hsplit] at hpair
  exact (List.pairwise_append.mp hpair).2.2 e hetake e2 he2drop

/-- `cleanup` keeps the keys of the cache map distinct. -/
theorem cleanup_nodup (c : ClienteCache)
    (hnd : (c.cache.map Prod.fst).Nodup) :
    ((c.cleanup).cache.map Prod.fst).Nodup := by
  rw [cleanup_cache c]
  exact ((List.filter_sublist c.cache).map Prod.fst).nodup hnd

/-- One `set` call preserves distinct keys and the capacity bound. -/
theorem set_preserves_inv (c : ClienteCache) (k : String) (d : CacheData)
    (now : Nat) (hnd : (c.cache.map Prod.fst).Nodup)
    (hle : c.cache.length ≤ MAX_CACHE_SIZE) :
    ((c.set k d now).cache.map Prod.fst).Nodup ∧
      (c.set k d now).cache.length ≤ MAX_CACHE_SIZE := by
  have hM : MAX_CACHE_SIZE = 200 := rfl
  rw [set_cache]
  by_cases hfull : c.cache.length ≥ MAX_CACHE_SIZE
  · rw [if_pos hfull]
    have hcnt := (cleanup_counting c hnd).1
    have hpos := toDeleteCount_pos c.cache.length (by omega)
    refine ⟨nodup_keys_mapSet _ _ _ (cleanup_nodup c hnd), ?_⟩
    have hstep := length_mapSet_le (c.cleanup).cache k
      ⟨d, now, d.lista_precios.length⟩
    omega
  · rw [if_neg hfull]
    refine ⟨nodup_keys_mapSet _ _ _ hnd, ?_⟩
    have hstep := length_mapSet_le c.cache k ⟨d, now, d.lista_precios.length⟩
    omega

/-- The invariant of `set_preserves_inv`, folded over a sequence. -/
theorem foldl_set_inv (ops : List (String × CacheData × Nat))
    (c : ClienteCache) (hnd : (c.cache.map Prod.fst).Nodup)
    (hle : c.cache.length ≤ MAX_CACHE_SIZE) :
    (((ops.foldl (fun a op => a.set op.1 op.2.1 op.2.2) c).cache.map
        Prod.fst).Nodup) ∧
      (ops.foldl (fun a op => a.set op.1 op.2.1 op.2.2) c).cache.length ≤
        MAX_CACHE_SIZE := by
  induction ops generalizing c with
  | nil => exact ⟨hnd, hle⟩
  | cons op rest ih =>
    obtain ⟨h1, h2⟩ := set_preserves_inv c op.1 op.2.1 op.2.2 hnd hle
    exact ih _ h1 h2

/-- C1: Bounded size — for every sequence of `set` operations on the
client cache, after each `set` completes the number of cache entries is
at most `MAX_CACHE_SIZE` (200); when a `set` finds the cache at or above
the cap, `cleanup` runs before the insert (see `ClienteCache.set`), so
the insert never fails. -/
theorem set_sequence_bounded_size (ops : List (String × CacheData × Nat))
    (n : Nat) : (runSets (ops.take n)).cache.length ≤ MAX_CACHE_SIZE :=
  (foldl_set_inv (ops.take n) ClienteCache.empty (by simp [ClienteCache.empty])
    (by simp [ClienteCache.empty, MAX_CACHE_SIZE])).2

/-- C2: TTL lazy expiry — a `get` that finds an entry older than the TTL
returns absent, removes the entry from the cache map (so a subsequent
`getStats` reports one client fewer), and leaves the stats map — in
particular `hits` and `sets` of that client — untouched. -/
theorem get_ttl_expiry (c : ClienteCache) (clienteId : String) (now : Nat)
    (item : CacheItem) (hnd : (c.cache.map Prod.fst).Nodup)
    (hfind : mapGet c.cache clienteId = some item)
    (hexp : now - item.timestamp > CACHE_TTL) :
    (c.get clienteId now).1 = none ∧
      ((c.get clienteId now).2.getStats).total_clientes + 1 =
        (c.getStats).total_clientes ∧
      (c.get clienteId now).2.stats = c.stats := by
  rw [get_of_expired c clienteId now item hfind hexp]
  refine ⟨rfl, ?_, rfl⟩
  show (mapDelete c.cache clienteId).length + 1 = c.cache.length
  exact length_mapDelete_of_mem c.cache clienteId item hnd hfind

/-- Witness for C2 at a concrete expired entry. -/
theorem get_ttl_expiry_witness :
    (expiredCache.get ("A") (CACHE_TTL + 1)).1 = none ∧
      ((expiredCache.get ("A") (CACHE_TTL + 1)).2.getStats).total_clientes + 1 =
        (expiredCache.getStats).total_clientes ∧
      (expiredCache.get ("A") (CACHE_TTL + 1)).2.stats = expiredCache.stats :=
  get_ttl_expiry expiredCache ("A") (CACHE_TTL + 1) ⟨demoData, 0, 0⟩
    (by decide) (by decide) (by decide)

/-- C3: Eviction policy — on a cache with `n ≥ 1` entries (distinct keys),
`cleanup` removes exactly `⌈0.2·n⌉` entries, the removed entries precede
every kept entry in the order "ascending hit count, then ascending (older)
timestamp", and a single-entry cache is emptied. -/
theorem cleanup_evicts_bottom_fifth (c : ClienteCache)
    (hn : 1 ≤ c.cache.length) (hnd : (c.cache.map Prod.fst).Nodup) :
    (c.cleanup).cache.length + toDeleteCount c.cache.length =
        c.cache.length ∧
      1 ≤ toDeleteCount c.cache.length ∧
      (c.cache.length = 1 → (c.cleanup).cache = []) ∧
      ∀ e ∈ c.cache, e ∉ (c.cleanup).cache →
        ∀ e2 ∈ (c.cleanup).cache, cleanupLe c.stats e e2 = true := by
  obtain ⟨h1, h2⟩ := cleanup_counting c hnd
  refine ⟨h1, toDeleteCount_pos _ hn, ?_, h2⟩
  intro hone
  rw [hone] at h1
  have ht1 : toDeleteCount 1 = 1 := rfl
  rw [ht1] at h1
  exact List.length_eq_zero.mp (by omega)

/-- Witness for C3 on a concrete two-entry cache. -/
theorem cleanup_evicts_bottom_fifth_witness :
    ((twoEntryCache.cleanup).cache.length +
        toDeleteCount twoEntryCache.cache.length =
          twoEntryCache.cache.length ∧
      1 ≤ toDeleteCount twoEntryCache.cache.length ∧
      (twoEntryCache.cache.length = 1 → (twoEntryCache.cleanup).cache = []) ∧
      ∀ e ∈ twoEntryCache.cache, e ∉ (twoEntryCache.cleanup).cache →
        ∀ e2 ∈ (twoEntryCache.cleanup).cache,
          cleanupLe twoEntryCache.stats e e2 = true) :=
  cleanup_evicts_bottom_fifth twoEntryCache (by decide) (by decide)

/-- C4 counterexample: the claim asserts that explicit `delete` (and the
eviction sweep) removes the stats entry of the deleted key; in the code
`delete` removes the cache entry of `"A"` but its stats entry survives
unchanged. -/
theorem delete_eviction_keep_stats_cex :
    mapGet expiredCache.cache ("A") = some ⟨demoData, 0, 0⟩ ∧
      mapGet ((expiredCache.delete ("A")).cache) ("A") = none ∧
      mapGet ((expiredCache.delete ("A")).stats) ("A") = some ⟨3, 1, 5⟩ :=
  ⟨by decide, by decide, by decide⟩

/-- C4 (amended): no cache operation removes a stats entry — TTL expiry
inside `get`, explicit `delete`, and the `cleanup` eviction sweep all
leave the stats map unchanged. -/
theorem stats_never_removed (c : ClienteCache) (clienteId : String)
    (now : Nat) (item : CacheItem)
    (hfind : mapGet c.cache clienteId = some item)
    (hexp : now - item.timestamp > CACHE_TTL) :
    (c.get clienteId now).2.stats = c.stats ∧
      ∀ (c2 : ClienteCache) (k : String),
        (c2.delete k).stats = c2.stats ∧ (c2.cleanup).stats = c2.stats := by
  refine ⟨?_, fun c2 k => ⟨rfl, cleanup_stats c2⟩⟩
  rw [get_of_expired c clienteId now item hfind hexp]

/-- Witness for the amended C4 at a concrete expired entry. -/
theorem stats_never_removed_witness :
    ((expiredCache.get ("A") (CACHE_TTL + 1)).2.stats = expiredCache.stats ∧
      ∀ (c2 : ClienteCache) (k : String),
        (c2.delete k).stats = c2.stats ∧ (c2.cleanup).stats = c2.stats) :=
  stats_never_removed expiredCache ("A") (CACHE_TTL + 1) ⟨demoData, 0, 0⟩
    (by decide) (by decide)

/-! ## Lemmas about the optimizer -/

theorem optFold_fst (l : List (Nat × RawProduct))
    (st : List ItemOptimizado × List (String × MapEntry) × Bool) :
    (l.foldl optStep st).1 =
      st.1 ++ l.map (fun ip => itemOptimizado ip.1 ip.2) := by
  induction l generalizing st with
  | nil => simp
  | cons ip rest ih =>
    simp only [List.foldl_cons, List.map_cons, ih, optStep]
    simp [List.append_assoc]

theorem optFold_mapa (l : List (Nat × RawProduct))
    (st : List ItemOptimizado × List (String × MapEntry) × Bool) :
    (l.foldl optStep st).2.1 =
      (l.map (fun ip => itemOptimizado ip.1 ip.2)).foldl insItem st.2.1 := by
  induction l generalizing st with
  | nil => rfl
  | cons ip rest ih =>
    simp only [List.foldl_cons, List.map_cons]
    exact ih (optStep st ip)

theorem mapGet_foldl_insItem_not_mem (items : List ItemOptimizado)
    (m : List (String × MapEntry)) (k : String)
    (hk : k ∉ items.map ItemOptimizado.s) :
    mapGet (items.foldl insItem m) k = mapGet m k := by
  induction items generalizing m with
  | nil => rfl
  | cons it rest ih =>
    simp only [List.map_cons, List.mem_cons, not_or] at hk
    rw [List.foldl_cons, ih (insItem m it) hk.2, insItem,
      mapGet_mapSet_ne _ _ _ _ hk.1]

theorem mapGet_foldl_insItem_self (items : List ItemOptimizado)
    (m : List (String × MapEntry))
    (hnd : (items.map ItemOptimizado.s).Nodup) (it : ItemOptimizado)
    (hmem : it ∈ items) :
    mapGet (items.foldl insItem m) it.s = some ⟨it.pf, it.pl, it.d⟩ := by
  induction items generalizing m with
  | nil => simp at hmem
  | cons x rest ih =>
    simp only [List.map_cons, List.nodup_cons] at hnd
    rcases List.mem_cons.mp hmem with heq | hmem2
    · subst heq
      rw [List.foldl_cons,
        mapGet_foldl_insItem_not_mem rest _ it.s hnd.1, insItem,
        mapGet_mapSet_self]
    · rw [List.foldl_cons]
      exact ih (insItem m x) hnd.2 hmem2

theorem nodup_keys_foldl_insItem (items : List ItemOptimizado)
    (m : List (String × MapEntry)) (h : (m.map Prod.fst).Nodup) :
    ((items.foldl insItem m).map Prod.fst).Nodup := by
  induction items generalizing m with
  | nil => exact h
  | cons x rest ih =>
    rw [List.foldl_cons]
    exact ih (insItem m x) (nodup_keys_mapSet _ _ _ h)

/-- What the `optimizado` branch produces: the item list and the
SKU → price map, characterised through the loop fold. -/
theorem optimize_optimizado_parts (prices : List RawProduct) :
    optItemsOf (optimizePriceData prices ("optimizado")) =
        prices.enum.map (fun ip => itemOptimizado ip.1 ip.2) ∧
      mapaOf (optimizePriceData prices ("optimizado")) =
        (prices.enum.map (fun ip => itemOptimizado ip.1 ip.2)).foldl
          insItem [] := by
  by_cases h : prices.length = 0
  · have he : prices = [] := List.length_eq_zero.mp h
    subst he
    exact ⟨rfl, rfl⟩
  · unfold optimizePriceData
    rw [if_neg h, if_pos rfl]
    constructor
    · show List.filterMap _ ((prices.enum.foldl optStep ([], [], false)).1.map
        PriceItem.opt) = _
      rw [optFold_fst prices.enum ([], [], false), List.nil_append,
        List.filterMap_map]
      exact List.filterMap_some _
    · show ((prices.enum.foldl optStep ([], [], false)).2.1 : _) = _
      rw [optFold_mapa prices.enum ([], [], false)]

/-- C5 counterexample: on an input repeating the sku `"A"` with different
prices the produced index entry cannot match both list items bearing
`"A"`, so the consistency property as claimed fails. -/
theorem index_list_consistency_cex :
    ¬ indexListConsistent (optimizePriceData dupInput ("optimizado")) := by
  decide

/-- C5 (amended): index/list consistency holds provided the skus produced
by the optimizer loop are pairwise distinct (with duplicate skus the index
keeps only the last occurrence): every sku of the produced price list
appears exactly once as a key of the price index, and the index entry
carries the same final and list price as the item bearing that sku. -/
theorem optimize_index_consistent (prices : List RawProduct)
    (hnd : (optimizedSkus prices).Nodup) :
    indexListConsistent (optimizePriceData prices ("optimizado")) := by
  obtain ⟨hitems, hmapa⟩ := optimize_optimizado_parts prices
  have hsk : (prices.enum.map (fun ip => itemOptimizado ip.1 ip.2)).map
      ItemOptimizado.s = optimizedSkus prices := by
    rw [List.map_map]; rfl
  constructor
  · rw [hmapa]
    exact nodup_keys_foldl_insItem _ [] (by simp)
  · intro it hit
    rw [hitems] at hit
    rw [hmapa, mapGet_foldl_insItem_self _ [] (by rw [hsk]; exact hnd) it hit]
    exact ⟨rfl, rfl⟩

/-- Witness for the amended C5 on a two-product input with distinct skus. -/
theorem optimize_index_consistent_witness :
    (optimizedSkus distinctInput).Nodup ∧
      indexListConsistent (optimizePriceData distinctInput ("optimizado")) :=
  ⟨by decide, optimize_index_consistent distinctInput (by decide)⟩

/-- C9 counterexample: at the empty input the `completo` format returns
an empty price map (the early branch), not an absent one. -/
theorem full_format_empty_map_cex :
    (optimizePriceData [] ("completo")).mapa_precios = some [] ∧
      (some ([] : List (String × MapEntry)) ≠
        (none : Option (List (String × MapEntry)))) :=
  ⟨rfl, by decide⟩

/-- C9 (amended): for every NON-empty input, format `completo` passes the
raw products through unmodified and produces no price index (the field is
the JS `undefined`, i.e. `none`); at the empty input the early branch
returns the empty list together with an empty — not absent — map. -/
theorem completo_format_passthrough (prices : List RawProduct)
    (hne : prices ≠ []) :
    (optimizePriceData prices ("completo")).lista_precios =
        prices.map PriceItem.raw ∧
      (optimizePriceData prices ("completo")).mapa_precios = none ∧
      (optimizePriceData prices ("completo")).total_productos =
        prices.length ∧
      (optimizePriceData prices ("completo")).tiene_descuentos = false := by
  have h : ¬ prices.length = 0 := fun h0 => hne (List.length_eq_zero.mp h0)
  unfold optimizePriceData
  rw [if_neg h,
    if_neg (show ¬ ("completo" : String) = "optimizado" from by decide)]
  exact ⟨rfl, rfl, rfl, rfl⟩

/-- Witness for the amended C9 on a concrete two-product input. -/
theorem completo_format_passthrough_witness :
    distinctInput ≠ [] ∧
      ((optimizePriceData distinctInput ("completo")).lista_precios =
          distinctInput.map PriceItem.raw ∧
        (optimizePriceData distinctInput ("completo")).mapa_precios = none ∧
        (optimizePriceData distinctInput ("completo")).total_productos =
          distinctInput.length ∧
        (optimizePriceData distinctInput ("completo")).tiene_descuentos =
          false) :=
  ⟨by decide, completo_format_passthrough distinctInput (by decide)⟩

/-! ## The visibles resolver and the completo orchestrator -/

/-- C6 counterexample: for an uncached client and two requested SKUs the
code returns placeholders that are counted in `skus_encontrados`, so the
reported found count is 2, not the claimed 0. -/
theorem visibles_uncached_found_count_cex :
    (visiblesHandler ClienteCache.empty ("K1") (some ("A,B")) 0 =
      .ok
        { success := true, cliente := "K1", skus_solicitados := 2,
          skus_encontrados := 2,
          productos := [placeholderProducto ("A"), placeholderProducto ("B")],
          recomendacion := "Todos los SKUs encontrados exitosamente",
          metadata_desde_cache := false }
        ClienteCache.empty) ∧ (2 : Nat) ≠ 0 :=
  ⟨by decide, by decide⟩

/-- C6 (amended): for an uncached client the resolver reports every
requested SKU back as a placeholder with zero prices, `desde_cache =
false` and the populate-the-cache advisory, with `skus_solicitados` and
`skus_encontrados` both equal to the number of processed SKUs (the
placeholders are counted as found, so the found count equals the
requested count, not 0); the cache state is returned unchanged and no
upstream fetch is involved. -/
theorem visibles_uncached_placeholders (cache : ClienteCache)
    (codigo s : String) (now : Nat) (hc : codigo ≠ "") (hs : s ≠ "")
    (hmiss : mapGet cache.cache codigo = none) :
    visiblesHandler cache codigo (some s) now =
      .ok
        { success := true
          cliente := codigo
          skus_solicitados := (skuArrayOf s).length
          skus_encontrados := (skuArrayOf s).length
          productos := (skuArrayOf s).map placeholderProducto
          recomendacion := "Todos los SKUs encontrados exitosamente"
          metadata_desde_cache := false }
        cache := by
  unfold visiblesHandler
  rw [if_neg hc]
  dsimp only
  rw [if_neg hs, get_of_absent cache codigo now hmiss]
  dsimp only
  cases hsa : skuArrayOf s with
  | nil => rfl
  | cons a rest =>
    simp only [List.map_cons, List.length_cons, List.length_map,
      lt_irrefl, if_neg, placeholderProducto]
    rfl

/-- Witness for the amended C6 at a concrete uncached client. -/
theorem visibles_uncached_placeholders_witness :
    visiblesHandler ClienteCache.empty ("K2") (some ("A,B")) 0 =
      .ok
        { success := true
          cliente := "K2"
          skus_solicitados := (skuArrayOf ("A,B")).length
          skus_encontrados := (skuArrayOf ("A,B")).length
          productos := (skuArrayOf ("A,B")).map placeholderProducto
          recomendacion := "Todos los SKUs encontrados exitosamente"
          metadata_desde_cache := false }
        ClienteCache.empty :=
  visibles_uncached_placeholders ClienteCache.empty ("K2") ("A,B") 0
    (by decide) (by decide) (by decide)

/-- C7 counterexample: the input `"A,A"` is processed to `["A", "A"]` —
duplicate SKUs are NOT removed. -/
theorem sku_dedup_cex :
    skuArrayOf ("A,A") = ["A", "A"] ∧ ¬ (skuArrayOf ("A,A")).Nodup :=
  ⟨by decide, by decide⟩

/-- C7 (amended): the processed SKU list consists of the comma-split and
trimmed entries with empty strings dropped — duplicates retained — capped
at the first 100 elements; entries beyond the cap are silently dropped
and never cause an error (the resolver still answers success). -/
theorem sku_input_hygiene (s : String) (cache : ClienteCache)
    (codigo : String) (now : Nat) (hc : codigo ≠ "") (hs : s ≠ "") :
    (skuArrayOf s).length =
        min 100 (((jsSplitComma s).map jsTrim).filter
          (fun x => decide (x ≠ ""))).length ∧
      (∀ x ∈ skuArrayOf s, x ≠ "") ∧
      ∃ r c2, visiblesHandler cache codigo (some s) now = .ok r c2 ∧
        r.skus_solicitados = (skuArrayOf s).length := by
  refine ⟨?_, ?_, ?_⟩
  · rw [skuArrayOf, List.length_take]
  · intro x hx
    have hx2 := (List.mem_filter.mp (List.take_subset 100 _ hx)).2
    simpa using hx2
  · unfold visiblesHandler
    rw [if_neg hc]
    dsimp only
    rw [if_neg hs]
    cases hg : (cache.get codigo now).1 with
    | none => exact ⟨_, _, rfl, rfl⟩
    | some cd =>
      cases hm : cd.mapa_precios with
      | none => exact ⟨_, _, rfl, rfl⟩
      | some mapa => exact ⟨_, _, rfl, rfl⟩

/-- Witness for the amended C7 on a 150-SKU request (50 beyond the cap). -/
theorem sku_input_hygiene_witness :
    ((skuArrayOf manySkus).length =
        min 100 (((jsSplitComma manySkus).map jsTrim).filter
          (fun x => decide (x ≠ ""))).length ∧
      (∀ x ∈ skuArrayOf manySkus, x ≠ "") ∧
      ∃ r c2, visiblesHandler ClienteCache.empty ("K1") (some manySkus) 0 =
          .ok r c2 ∧ r.skus_solicitados = (skuArrayOf manySkus).length) :=
  sku_input_hygiene manySkus ClienteCache.empty ("K1") 0 (by decide)
    (by decide)

/-- C10: a fresh cached entry without a price index (as stored by a
`completo`-format fetch) makes the resolver behave exactly as for an
uncached client — every requested SKU comes back as a zero-price
placeholder with `desde_cache = false` and the populate-the-cache
advisory — even though the entry exists and the `get` incremented the
client's hit count. -/
theorem visibles_no_index_placeholders (cache : ClienteCache)
    (codigo s : String) (now : Nat) (item : CacheItem)
    (hc : codigo ≠ "") (hs : s ≠ "")
    (hfind : mapGet cache.cache codigo = some item)
    (hfresh : ¬ now - item.timestamp > CACHE_TTL)
    (hnomapa : item.data.mapa_precios = none) :
    visiblesHandler cache codigo (some s) now =
      .ok
        { success := true
          cliente := codigo
          skus_solicitados := (skuArrayOf s).length
          skus_encontrados := (skuArrayOf s).length
          productos := (skuArrayOf s).map placeholderProducto
          recomendacion := "Todos los SKUs encontrados exitosamente"
          metadata_desde_cache := false }
        (cache.updateStats codigo ("hit") now) ∧
      hitsOf ((cache.updateStats codigo ("hit") now).stats) codigo =
        hitsOf cache.stats codigo + 1 := by
  refine ⟨?_, updateStats_hit_hits cache codigo now⟩
  unfold visiblesHandler
  rw [if_neg hc]
  dsimp only
  rw [if_neg hs, get_fst_of_fresh cache codigo now item hfind hfresh]
  dsimp only
  rw [hnomapa]
  cases hsa : skuArrayOf s with
  | nil => rfl
  | cons a rest =>
    simp only [List.map_cons, List.length_cons, List.length_map,
      lt_irrefl, if_neg, placeholderProducto]
    rfl

/-- Witness for C10 on a concrete fresh `completo`-format entry. -/
theorem visibles_no_index_placeholders_witness :
    (visiblesHandler noMapaCache ("A") (some ("A,B")) 0 =
      .ok
        { success := true
          cliente := "A"
          skus_solicitados := (skuArrayOf ("A,B")).length
          skus_encontrados := (skuArrayOf ("A,B")).length
          productos := (skuArrayOf ("A,B")).map placeholderProducto
          recomendacion := "Todos los SKUs encontrados exitosamente"
          metadata_desde_cache := false }
        (noMapaCache.updateStats ("A") ("hit") 0) ∧
      hitsOf ((noMapaCache.updateStats ("A") ("hit") 0).stats) ("A") =
        hitsOf noMapaCache.stats ("A") + 1) :=
  visibles_no_index_placeholders noMapaCache ("A") ("A,B") 0
    ⟨demoDataNoMapa, 0, 0⟩ (by decide) (by decide) (by decide) (by decide)
    (by decide)

/-- C8 counterexample: a zero-product fetch for a client whose cache
entry has expired does change the cache map — the lazy-expiry check of
the initial cache lookup removes the stale entry (nothing is stored, but
the map shrinks), refuting the parenthetical "the cache map is unchanged
by the request". -/
theorem empty_result_cache_changed_cex :
    (completoHandler expiredCache ("A") ("false") ("optimizado")
        (.ok (.arr [])) 5 (CACHE_TTL + 1) =
      .ok
        { success := true, cliente := "A", total_productos := 0,
          lista_precios := [], desde_cache := false,
          guardado_en_cache := some false, mapa_precios := some [] }
        ⟨[], expiredCache.stats⟩) ∧
      expiredCache.cache ≠ [] :=
  ⟨by decide, by decide⟩

/-- C8 (amended): a fetch that normalises to zero products stores
nothing: the request leaves the cache exactly as the initial cache check
left it (no entry is created or overwritten for any key; the only
possible change is the lazy-expiry removal of an already-stale entry
during that check), the request still succeeds with `total_productos =
0`, the client ends up uncached, and a later lookup for the same client
misses again (so a later fetch goes upstream instead of serving a cached
empty result). -/
theorem empty_result_not_cached (cache : ClienteCache)
    (codigo formato : String) (shape : UpstreamShape) (ft now now2 : Nat)
    (hc : jsTrim codigo ≠ "")
    (hmiss : (cache.get (jsTrim codigo) now).1 = none)
    (hzero : (normalizeUpstream shape).2 = 0) :
    completoHandler cache codigo ("false") formato (.ok shape) ft now =
      .ok
        { success := true
          cliente := jsTrim codigo
          total_productos := 0
          lista_precios := []
          desde_cache := false
          guardado_en_cache := some false
          mapa_precios := if formato = "optimizado" then some [] else none }
        ((cache.get (jsTrim codigo) now).2) ∧
      mapGet ((cache.get (jsTrim codigo) now).2).cache (jsTrim codigo) =
        none ∧
      (((cache.get (jsTrim codigo) now).2).get (jsTrim codigo) now2).1 =
        none := by
  have habsent := get_none_absent cache (jsTrim codigo) now hmiss
  have hlater :
      (((cache.get (jsTrim codigo) now).2).get (jsTrim codigo) now2).1 =
        none := by
    rw [get_of_absent _ _ _ habsent]
  have hemp : (normalizeUpstream shape).1 = [] := by
    cases shape with
    | arr l =>
      simp only [normalizeUpstream] at hzero ⊢
      exact List.length_eq_zero.mp hzero
    | envelope l =>
      simp only [normalizeUpstream] at hzero ⊢
      exact List.length_eq_zero.mp hzero
    | other => rfl
  refine ⟨?_, habsent, hlater⟩
  unfold completoHandler
  rw [if_neg hc]
  dsimp only
  rw [if_pos (show ("false" : String) ≠ "true" from by decide), hmiss]
  dsimp only
  rw [hemp, hzero]
  simp [optimizePriceData]

/-- Witness for the amended C8 on a concrete uncached client and an
upstream result normalising to zero products. -/
theorem empty_result_not_cached_witness :
    (completoHandler ClienteCache.empty ("K1") ("false") ("optimizado")
        (.ok (.arr [])) 5 0 =
      .ok
        { success := true
          cliente := jsTrim ("K1")
          total_productos := 0
          lista_precios := []
          desde_cache := false
          guardado_en_cache := some false
          mapa_precios :=
            if ("optimizado" : String) = "optimizado" then some [] else none }
        ((ClienteCache.empty.get (jsTrim ("K1")) 0).2) ∧
      mapGet ((ClienteCache.empty.get (jsTrim ("K1")) 0).2).cache
        (jsTrim ("K1")) = none ∧
      (((ClienteCache.empty.get (jsTrim ("K1")) 0).2).get
        (jsTrim ("K1")) 7).1 = none) :=
  empty_result_not_cached ClienteCache.empty ("K1") ("optimizado")
    (.arr []) 5 0 7 (by decide) (by decide) (by decide)

end ListaPrecios
